import Mathlib

/-!
Shallow embedding of the iterm-mcp core (CommandExecutor, TabManager,
SessionManager) and proofs about its completion-detection protocol,
tab-identifier resolution, alias bookkeeping and session lifecycle.

Modelling conventions:
* JavaScript `Map` objects are embedded as insertion-ordered association
  lists (`JSMap`): `set` updates in place when the key is present and
  appends otherwise, matching `Map` iteration order.
* JavaScript floating-point numbers in the timeout/CPU arithmetic are
  embedded as exact unnormalized rationals (`JSNum`, an integer numerator
  and denominator), with the literals `0.25`, `0.93`, `0.7` as `25/100`,
  `93/100`, `7/10`.  `JSNum.toRat` maps a value to `ℚ` and the bridge
  lemmas transport the comparison operators, so the numeric theorems are
  stated over `ℚ` while every definition stays kernel-computable.
* String splitting/joining/lowercasing are embedded as structural
  recursion over the character list of the string, so that concrete runs
  reduce inside the kernel.
* Asynchronous polling loops are embedded as functions over the finite
  trace of responses the polled collaborator returns; `none` means the
  trace was exhausted with the loop still running.  Model time charges the
  explicit `sleep` intervals (100 ms / 350 ms) of the loops, which the
  design document identifies as the dominant suspension points.
* Fallible operations return `Except`; the channel calls an operation
  fires are collected in an explicit `ChannelCall` trace.
-/

namespace ItermMcp

/-! ## JavaScript Map model -/

namespace JSMap

/-- Value lookup: first entry whose key matches, as `Map.prototype.get`. -/
def get {α β : Type} [BEq α] (m : List (α × β)) (k : α) : Option β :=
  (m.find? (fun p => p.1 == k)).map Prod.snd

/-- Update in place when present, append otherwise, as `Map.prototype.set`. -/
def set {α β : Type} [BEq α] (m : List (α × β)) (k : α) (v : β) : List (α × β) :=
  if m.any (fun p => p.1 == k) then
    m.map (fun p => if p.1 == k then (k, v) else p)
  else
    m ++ [(k, v)]

/-- Entry removal, as `Map.prototype.delete` (result value ignored). -/
def delete {α β : Type} [BEq α] (m : List (α × β)) (k : α) : List (α × β) :=
  m.filter (fun p => !(p.1 == k))

/-- Key membership, as `Map.prototype.has`. -/
def has {α β : Type} [BEq α] (m : List (α × β)) (k : α) : Bool :=
  m.any (fun p => p.1 == k)

end JSMap

/-! ## JavaScript number model -/

/-- A JavaScript number, embedded as an exact rational `num / den`.
Denominators are kept positive by construction (every constructor and
operation below produces a positive denominator from positive ones). -/
structure JSNum : Type where
  num : Int
  den : Int
  deriving DecidableEq

namespace JSNum

/-- Embeds an integer. -/
def ofInt (n : Int) : JSNum := ⟨n, 1⟩

/-- Multiplication. -/
def mul (x y : JSNum) : JSNum := ⟨x.num * y.num, x.den * y.den⟩

/-- Addition. -/
def add (x y : JSNum) : JSNum := ⟨x.num * y.den + y.num * x.den, x.den * y.den⟩

/-- Subtraction. -/
def sub (x y : JSNum) : JSNum := ⟨x.num * y.den - y.num * x.den, x.den * y.den⟩

/-- Comparison `x <= y` by cross multiplication (valid for positive
denominators). -/
def le (x y : JSNum) : Bool := decide (x.num * y.den ≤ y.num * x.den)

/-- Comparison `x < y` by cross multiplication (valid for positive
denominators). -/
def lt (x y : JSNum) : Bool := decide (x.num * y.den < y.num * x.den)

/-- `Math.min`. -/
def jsMin (x y : JSNum) : JSNum := if x.le y then x else y

/-- `Math.max`. -/
def jsMax (x y : JSNum) : JSNum := if x.le y then y else x

/-- The rational value of a `JSNum`. -/
def toRat (x : JSNum) : ℚ := (x.num : ℚ) / (x.den : ℚ)

end JSNum

/-! ## String helpers (structural models of the JS string operations) -/

/-- `String.prototype.split("\n")` over the character list. -/
def splitCharsOnNL : List Char → List (List Char)
  | [] => [[]]
  | c :: rest =>
    let r := splitCharsOnNL rest
    if c = '\n' then [] :: r
    else
      match r with
      | [] => [[c]]
      | l :: ls => (c :: l) :: ls

/-- `s.split("\n")` for a JavaScript string `s`. -/
def jsSplitNewline (s : String) : List String :=
  (splitCharsOnNL s.data).map (fun l => String.mk l)

/-- `Array.prototype.join(sep)`. -/
def joinWith : List String → String → String
  | [], _ => ""
  | [s], _ => s
  | s :: rest, sep => s ++ sep ++ joinWith rest sep

/-- `String.prototype.toLowerCase()` (ASCII range, which is all the code
compares against). -/
def jsToLower (s : String) : String := String.mk (s.data.map Char.toLower)

/-- ASCII whitespace skipped by `parseInt`. -/
def isJsSpace (c : Char) : Bool :=
  (c == ' ') || (c == '\t') || (c == '\n') || (c == '\r')

/-- Value of a decimal digit run. -/
def natOfDigits (ds : List Char) : Nat :=
  ds.foldl (fun n c => 10 * n + (c.toNat - 48)) 0

/-- The leading decimal-digit run of `cs`, or `none` when `cs` does not
start with a digit (`parseInt` returns `NaN` then). -/
def digitsValue (cs : List Char) : Option Nat :=
  let ds := cs.takeWhile Char.isDigit
  if ds.isEmpty then none else some (natOfDigits ds)

/-- JavaScript `parseInt(s, 10)`: skip leading whitespace, optional sign,
then the longest decimal-digit run; `none` models `NaN`. -/
def jsParseInt (s : String) : Option Int :=
  match s.data.dropWhile isJsSpace with
  | '-' :: rest => (digitsValue rest).map (fun n => -(n : Int))
  | '+' :: rest => (digitsValue rest).map (fun n => (n : Int))
  | cs => (digitsValue cs).map (fun n => (n : Int))

/-! ## CommandExecutor (src/unnamed/part_003) -/

/-- One response of the Process Activity Inspector
(`ProcessTracker.getActiveProcess`) as observed by a single poll of the
loop in `isWaitingForUserInput`: the call threw, returned no foreground
process, or returned a process with the given `totalCPUPercent`. -/
inductive PollResult : Type
  | err : PollResult
  | idle : PollResult
  | busy (cpu : JSNum) : PollResult
  deriving DecidableEq

/-- The `while (true)` polling loop of `isWaitingForUserInput`, over the
trace of inspector responses, threaded with the `belowThresholdTime`
accumulator (milliseconds).  Returns the loop result together with the
number of 350 ms sleeps taken; `none` when the trace is exhausted with the
loop still running.  Mirrors the source: an inspector error returns `true`
(the inner `catch`), no foreground process returns `true`, CPU below 1 %
adds 350 ms to the accumulator and returns `true` once it reaches
1000 ms, and CPU at or above 1 % resets the accumulator. -/
def iwuiLoop : List PollResult → Nat → Option (Bool × Nat)
  | [], _ => none
  | p :: rest, belowThresholdTime =>
    match p with
    | .err => some (true, 0)
    | .idle => some (true, 0)
    | .busy cpu =>
      if cpu.lt (JSNum.ofInt 1) then
        if 1000 ≤ belowThresholdTime + 350 then
          some (true, 0)
        else
          match iwuiLoop rest (belowThresholdTime + 350) with
          | some (b, k) => some (b, k + 1)
          | none => none
      else
        match iwuiLoop rest 0 with
        | some (b, k) => some (b, k + 1)
        | none => none

/-- `CommandExecutor.isWaitingForUserInput`.  `openOk` records whether the
initial `openSync` on the TTY succeeded; when it throws, the outer `catch`
returns `true` (and the `finally` block, which ends in `return true` and
therefore overrides every other exit of the function, returns `true` as
well).  Every return path of the source yields `true`, which the theorems
below make precise. -/
def isWaitingForUserInput (openOk : Bool) (polls : List PollResult) :
    Option (Bool × Nat) :=
  if openOk then iwuiLoop polls 0 else some (true, 0)

/-- The polling loop of `waitForUserInputReady`, over the successive
results of its `isWaitingForUserInput` calls: re-check while the result is
`false`, sleeping 100 ms in between.  Returns the number of sleeps taken,
`none` when the result trace is exhausted with the loop still running. -/
def waitForUserInputReadySleeps : List Bool → Option Nat
  | [] => none
  | b :: rest =>
    if b then some 0
    else (waitForUserInputReadySleeps rest).map (· + 1)

/-- The polling loop of `waitForProcessingComplete`, over the successive
results of the `is processing` channel query: poll while `true`, sleeping
100 ms in between.  Returns the number of sleeps taken, `none` when the
trace is exhausted with the session still processing. -/
def waitForProcessingCompleteSleeps : List Bool → Option Nat
  | [] => none
  | b :: rest =>
    if b then (waitForProcessingCompleteSleeps rest).map (· + 1)
    else some 0

/-- The timeout clamp applied by the dispatch layer (src/src/index.ts):
`Math.min(Math.max(t, 1), 120)` seconds. -/
def clampTimeout (t : JSNum) : JSNum :=
  JSNum.jsMin (JSNum.jsMax t (JSNum.ofInt 1)) (JSNum.ofInt 120)

/-- The Phase A budget of `executeCommand`: `timeoutMs * 0.25`. -/
def phaseATimeoutBudget (timeoutMs : JSNum) : JSNum :=
  JSNum.mul timeoutMs ⟨25, 100⟩

/-- The Phase B budget computed by `executeCommand` (milliseconds):
`remainingTime = Math.max(timeoutMs - elapsedTime, 1000)` and
`inputTimeout = Math.min(remainingTime * 0.93, timeoutMs * 0.7)`. -/
def phaseBTimeout (timeoutMs elapsedTime : JSNum) : JSNum :=
  JSNum.jsMin
    (JSNum.mul (JSNum.jsMax (JSNum.sub timeoutMs elapsedTime) (JSNum.ofInt 1000)) ⟨93, 100⟩)
    (JSNum.mul timeoutMs ⟨7, 10⟩)

/-- The optional `output` field of the result of `executeCommand`:
`absent` when not requested (`undefined`, spread away), `null` when the
capture step threw, otherwise the captured text. -/
inductive CapturedOutput : Type
  | absent : CapturedOutput
  | null : CapturedOutput
  | text (s : String) : CapturedOutput
  deriving DecidableEq

/-- The result object of `executeCommand`.  `executionTime` is model time:
the sum of the sleep intervals charged plus the 200 ms settle delay. -/
structure ExecResult : Type where
  newLines : Int
  executionTime : JSNum
  output : CapturedOutput
  deriving DecidableEq

/-- The phase-specific timeout errors of `executeCommand`, each carrying
the budget figure its message reports. -/
inductive ExecError : Type
  | phaseA (budgetMs : JSNum) : ExecError
  | phaseB (timeoutSeconds : JSNum) : ExecError
  deriving DecidableEq

/-- JavaScript `Array.prototype.slice(-m)` for `m > 0`: the last
`min m l.length` elements. -/
def lastSlice {α : Type} (l : List α) (m : Nat) : List α :=
  l.drop (l.length - m)

/-- `CommandExecutor.executeCommand` after submission, embedded over the
collaborator traces: `procPolls` are the successive `is processing`
answers (Phase A), `openOk` and `inspectorPolls` feed
`isWaitingForUserInput` (Phase B), and `captureThrows` records whether the
output-capture step threw.  A phase wait beats its `withTimeout` racer
exactly when its charged sleep time is strictly below the budget. -/
def executeCommand (beforeBuffer afterBuffer : String) (timeoutSeconds : JSNum)
    (returnOutputLines : Nat) (procPolls : List Bool) (openOk : Bool)
    (inspectorPolls : List PollResult) (captureThrows : Bool) :
    Except ExecError ExecResult :=
  let timeoutMs := JSNum.mul timeoutSeconds (JSNum.ofInt 1000)
  let beforeCommandBufferLines := (jsSplitNewline beforeBuffer).length
  let processingTimeout := phaseATimeoutBudget timeoutMs
  match waitForProcessingCompleteSleeps procPolls with
  | none => .error (.phaseA processingTimeout)
  | some procSleeps =>
    if (JSNum.ofInt (100 * procSleeps)).lt processingTimeout then
      let elapsedTime := JSNum.ofInt (100 * procSleeps)
      let inputTimeout := phaseBTimeout timeoutMs elapsedTime
      match isWaitingForUserInput openOk inspectorPolls with
      | none => .error (.phaseB timeoutSeconds)
      | some (res, inspectorSleeps) =>
        match waitForUserInputReadySleeps [res] with
        | none => .error (.phaseB timeoutSeconds)
        | some readySleeps =>
          if (JSNum.ofInt (350 * inspectorSleeps + 100 * readySleeps)).lt inputTimeout then
            let afterCommandBufferLines := (jsSplitNewline afterBuffer).length
            let newLines : Int :=
              (afterCommandBufferLines : Int) - (beforeCommandBufferLines : Int)
            let executionTime :=
              JSNum.add elapsedTime
                (JSNum.ofInt (350 * inspectorSleeps + 100 * readySleeps + 200))
            let output : CapturedOutput :=
              if returnOutputLines > 0 then
                if captureThrows then .null
                else
                  .text (joinWith (lastSlice (jsSplitNewline afterBuffer)
                    (returnOutputLines + 1)) "\n")
              else .absent
            .ok ⟨newLines, executionTime, output⟩
          else .error (.phaseB timeoutSeconds)
    else .error (.phaseA processingTimeout)

/-! ## TabManager (src/unnamed/part_001) -/

/-- One tab as reported by the terminal control channel when `listTabs`
parses its delimited records: the 0-based index and the display name. -/
structure TabRec : Type where
  index : Nat
  name : String
  deriving DecidableEq

/-- The `tabAliases` registry of `TabManager`:
`Map<string, Map<number, string>>`, outer key the window id, inner key the
tab index, inner value the alias. -/
abbrev TabAliases : Type := List (String × List (Nat × String))

/-- `TabManager.setTabAlias`: create the window's inner map when missing,
then set the alias under the tab index. -/
def setTabAlias (st : TabAliases) (windowId : String) (tabIndex : Nat)
    (a : String) : TabAliases :=
  JSMap.set st windowId (JSMap.set ((JSMap.get st windowId).getD []) tabIndex a)

/-- `TabManager.getTabAlias`. -/
def getTabAlias (st : TabAliases) (windowId : String) (tabIndex : Nat) :
    Option String :=
  (JSMap.get st windowId).bind (fun windowAliases => JSMap.get windowAliases tabIndex)

/-- `TabManager.removeTabAlias`: `this.tabAliases.get(windowId)?.delete(tabIndex)`. -/
def removeTabAlias (st : TabAliases) (windowId : String) (tabIndex : Nat) :
    TabAliases :=
  match JSMap.get st windowId with
  | none => st
  | some windowAliases => JSMap.set st windowId (JSMap.delete windowAliases tabIndex)

/-- `TabManager.clearWindowAliases`. -/
def clearWindowAliases (st : TabAliases) (windowId : String) : TabAliases :=
  JSMap.delete st windowId

/-- `TabManager.getTabIndexByAlias`: iterate the window's alias entries in
insertion order and return the first tab index whose alias matches. -/
def getTabIndexByAlias (st : TabAliases) (windowId : String) (a : String) :
    Option Nat :=
  match JSMap.get st windowId with
  | none => none
  | some windowAliases => (windowAliases.find? (fun p => p.2 == a)).map Prod.fst

/-- `TabManager.getTabIndex`: find a tab by display name in the channel's
tab listing. -/
def getTabIndex (tabs : List TabRec) (tabName : String) : Option Nat :=
  (tabs.find? (fun t => t.name == tabName)).map TabRec.index

/-- `TabManager.resolveTabIndex`: a numeric argument is returned as is; a
string is tried as a numeric literal (`parseInt`), then as an alias, then
as a name; `Tab not found` only after all three fail.  `tabs` is the
channel's current tab listing consulted by the name lookup. -/
def resolveTabIndex (aliases : TabAliases) (tabs : List TabRec)
    (windowId : String) (tabIdentifier : String ⊕ Int) : Except String Int :=
  match tabIdentifier with
  | .inr n => .ok n
  | .inl s =>
    match jsParseInt s with
    | some n => .ok n
    | none =>
      match getTabIndexByAlias aliases windowId s with
      | some i => .ok (Int.ofNat i)
      | none =>
        match getTabIndex tabs s with
        | some i => .ok (Int.ofNat i)
        | none => .error ("Tab not found: " ++ s)

/-- One call against the alias registry, for stating invariants over
arbitrary operation sequences. -/
inductive AliasOp : Type
  | setA (windowId : String) (tabIndex : Nat) (a : String) : AliasOp
  | removeA (windowId : String) (tabIndex : Nat) : AliasOp
  | clearW (windowId : String) : AliasOp
  deriving DecidableEq

/-- The window an alias operation addresses. -/
def AliasOp.windowId : AliasOp → String
  | .setA w _ _ => w
  | .removeA w _ => w
  | .clearW w => w

/-- Interpretation of one alias operation. -/
def applyAliasOp (st : TabAliases) : AliasOp → TabAliases
  | .setA w i a => setTabAlias st w i a
  | .removeA w i => removeTabAlias st w i
  | .clearW w => clearWindowAliases st w

/-- Interpretation of an operation sequence, oldest first. -/
def applyAliasOps (st : TabAliases) (ops : List AliasOp) : TabAliases :=
  ops.foldl applyAliasOp st

/-! ## SessionManager (src/src/KeySender.ts, second module) -/

/-- `SessionTabInfo`: the client's current tab bookkeeping. -/
structure SessionTabInfo : Type where
  windowId : String
  tabIndex : Int
  tabName : Option String
  deriving DecidableEq

/-- The three registries of `SessionManager`, all keyed by client id. -/
structure SMState : Type where
  sessionWindowMap : List (String × String)
  sessionPathMap : List (String × String)
  sessionTabMap : List (String × SessionTabInfo)
  deriving DecidableEq

/-- One call `SessionManager` fires against the terminal control channel
while closing things; recorded so the theorems can speak about which
surfaces an operation actually closed. -/
inductive ChannelCall : Type
  | closeWindow (windowId : String) : ChannelCall
  | closeTab (windowId : String) (tabIndex : Int) : ChannelCall
  deriving DecidableEq

/-- `SessionManager.endSession`: no registered window is a logged no-op;
otherwise the close-window channel call is fired and the three registry
entries are deleted — on the `try` path and on the `catch` path alike
(`closeFails` selects which of the two the channel took), which is why the
two match arms below are identical. -/
def endSession (closeFails : Bool) (clientId : String) (st : SMState) :
    SMState × List ChannelCall :=
  match JSMap.get st.sessionWindowMap clientId with
  | none => (st, [])
  | some windowId =>
    let cleaned : SMState :=
      { sessionWindowMap := JSMap.delete st.sessionWindowMap clientId
        sessionPathMap := JSMap.delete st.sessionPathMap clientId
        sessionTabMap := JSMap.delete st.sessionTabMap clientId }
    if closeFails then (cleaned, [.closeWindow windowId])
    else (cleaned, [.closeWindow windowId])

/-- The terminal control channel as seen by the tab-closing operations:
the current tab listing, which close-tab calls fail, whether close-window
fails, and the listing re-read by the bookkeeping after a successful
close (`none` models that re-read throwing). -/
structure Channel : Type where
  closeWindowFails : Bool
  tabs : List TabRec
  closeTabFails : Int → Bool
  tabsAfterClose : Option (List TabRec)

/-- `SessionManager.closeSessionTab`: resolve the identifier, fire the
close-tab channel call, then update the current-tab bookkeeping (reset to
tab 0 while tabs remain, drop the entry when none remain or the re-listing
throws).  Failures leave the registries untouched because every mutation
sits after the fallible awaits. -/
def closeSessionTab (ch : Channel) (aliases : TabAliases) (st : SMState)
    (clientId : String) (tabIdentifier : String ⊕ Int) :
    Except String SMState × List ChannelCall :=
  match JSMap.get st.sessionWindowMap clientId with
  | none => (.error ("No session found for client " ++ clientId), [])
  | some windowId =>
    match resolveTabIndex aliases ch.tabs windowId tabIdentifier with
    | .error e => (.error e, [])
    | .ok tabIndex =>
      if ch.closeTabFails tabIndex then
        (.error ("Failed to close tab " ++ toString tabIndex), [.closeTab windowId tabIndex])
      else
        let st' : SMState :=
          match JSMap.get st.sessionTabMap clientId with
          | some info =>
            if info.tabIndex == tabIndex then
              match ch.tabsAfterClose with
              | some remaining =>
                if remaining.length > 0 then
                  { st with sessionTabMap :=
                      JSMap.set st.sessionTabMap clientId ⟨windowId, 0, none⟩ }
                else
                  { st with sessionTabMap := JSMap.delete st.sessionTabMap clientId }
              | none => { st with sessionTabMap := JSMap.delete st.sessionTabMap clientId }
            else st
          | none => st
        (.ok st', [.closeTab windowId tabIndex])

/-- The `{success, message}` result shape of the tab/session closing
operations. -/
structure OpResult : Type where
  success : Bool
  message : String
  deriving DecidableEq

/-- One iteration of the identifier loop in `SessionManager.closeTabs`:
accumulate the evolving state, the channel calls fired, and the
closed/failed identifier lists. -/
def closeTabsStep (ch : Channel) (aliases : TabAliases) (clientId : String)
    (acc : SMState × List ChannelCall × List String × List String)
    (tabIdentifier : String) :
    SMState × List ChannelCall × List String × List String :=
  match closeSessionTab ch aliases acc.1 clientId (Sum.inl tabIdentifier) with
  | (.ok st', cs) => (st', acc.2.1 ++ cs, acc.2.2.1 ++ [tabIdentifier], acc.2.2.2)
  | (.error e, cs) =>
    (acc.1, acc.2.1 ++ cs, acc.2.2.1, acc.2.2.2 ++ [tabIdentifier ++ ": " ++ e])

/-- The individual-closures path of `SessionManager.closeTabs`: run every
identifier through `closeSessionTab` and assemble the result message. -/
def closeTabsLoop (ch : Channel) (aliases : TabAliases) (st : SMState)
    (clientId : String) (tabList : List String) :
    SMState × List ChannelCall × OpResult :=
  let (st', calls, closedTabs, failedTabs) :=
    tabList.foldl (closeTabsStep ch aliases clientId) (st, [], [], [])
  let successMessage :=
    if closedTabs.length > 0 then "Closed tabs: " ++ joinWith closedTabs ", " else ""
  let failureMessage :=
    if failedTabs.length > 0 then "Failed to close: " ++ joinWith failedTabs "; " else ""
  let message :=
    joinWith (([successMessage, failureMessage].filter (fun s => !(s == "")))) ". "
  (st', calls,
    ⟨closedTabs.length > 0, if message == "" then "No tabs were processed" else message⟩)

/-- `SessionManager.closeTabs`: no session is a failure result; a bare
string equal to `"all"` case-insensitively closes the whole window via
`endSession`; anything else — including an array whose sole element is
`"all"` — is wrapped into a list and each element resolved and closed
individually. -/
def closeTabs (ch : Channel) (aliases : TabAliases) (st : SMState)
    (clientId : String) (tabs : String ⊕ List String) :
    SMState × List ChannelCall × OpResult :=
  match JSMap.get st.sessionWindowMap clientId with
  | none => (st, [], ⟨false, "No session found for client " ++ clientId⟩)
  | some _ =>
    match tabs with
    | .inl s =>
      if jsToLower s == "all" then
        let (st', calls) := endSession ch.closeWindowFails clientId st
        (st', calls, ⟨true, "Successfully closed entire window for client " ++ clientId⟩)
      else closeTabsLoop ch aliases st clientId [s]
    | .inr tabList => closeTabsLoop ch aliases st clientId tabList

deriving instance DecidableEq for Except

/-! ## JSNum bridge lemmas -/

namespace JSNum

theorem den_ofInt (n : Int) : (ofInt n).den = 1 := rfl

theorem den_mul (x y : JSNum) : (mul x y).den = x.den * y.den := rfl

theorem den_sub (x y : JSNum) : (sub x y).den = x.den * y.den := rfl

theorem den_add (x y : JSNum) : (add x y).den = x.den * y.den := rfl

theorem den_pos_mul {x y : JSNum} (hx : 0 < x.den) (hy : 0 < y.den) :
    0 < (mul x y).den := mul_pos hx hy

theorem den_pos_sub {x y : JSNum} (hx : 0 < x.den) (hy : 0 < y.den) :
    0 < (sub x y).den := mul_pos hx hy

theorem den_pos_add {x y : JSNum} (hx : 0 < x.den) (hy : 0 < y.den) :
    0 < (add x y).den := mul_pos hx hy

theorem den_pos_jsMin {x y : JSNum} (hx : 0 < x.den) (hy : 0 < y.den) :
    0 < (jsMin x y).den := by
  unfold jsMin; split <;> assumption

theorem den_pos_jsMax {x y : JSNum} (hx : 0 < x.den) (hy : 0 < y.den) :
    0 < (jsMax x y).den := by
  unfold jsMax; split <;> assumption

theorem toRat_ofInt (n : Int) : (ofInt n).toRat = (n : ℚ) := by
  simp [ofInt, toRat]

theorem toRat_mul (x y : JSNum) : (mul x y).toRat = x.toRat * y.toRat := by
  simp only [mul, toRat]
  push_cast
  rw [div_mul_div_comm]

theorem toRat_sub {x y : JSNum} (hx : 0 < x.den) (hy : 0 < y.den) :
    (sub x y).toRat = x.toRat - y.toRat := by
  have hx0 : (x.den : ℚ) ≠ 0 := by exact_mod_cast hx.ne'
  have hy0 : (y.den : ℚ) ≠ 0 := by exact_mod_cast hy.ne'
  simp only [sub, toRat]
  push_cast
  rw [div_sub_div _ _ hx0 hy0]
  ring_nf

theorem toRat_add {x y : JSNum} (hx : 0 < x.den) (hy : 0 < y.den) :
    (add x y).toRat = x.toRat + y.toRat := by
  have hx0 : (x.den : ℚ) ≠ 0 := by exact_mod_cast hx.ne'
  have hy0 : (y.den : ℚ) ≠ 0 := by exact_mod_cast hy.ne'
  simp only [add, toRat]
  push_cast
  rw [div_add_div _ _ hx0 hy0]
  ring_nf

theorem le_iff {x y : JSNum} (hx : 0 < x.den) (hy : 0 < y.den) :
    le x y = true ↔ x.toRat ≤ y.toRat := by
  have hxq : (0 : ℚ) < (x.den : ℚ) := by exact_mod_cast hx
  have hyq : (0 : ℚ) < (y.den : ℚ) := by exact_mod_cast hy
  simp only [le, toRat, decide_eq_true_eq]
  rw [div_le_div_iff₀ hxq hyq]
  exact_mod_cast Iff.rfl

theorem lt_iff {x y : JSNum} (hx : 0 < x.den) (hy : 0 < y.den) :
    lt x y = true ↔ x.toRat < y.toRat := by
  have hxq : (0 : ℚ) < (x.den : ℚ) := by exact_mod_cast hx
  have hyq : (0 : ℚ) < (y.den : ℚ) := by exact_mod_cast hy
  simp only [lt, toRat, decide_eq_true_eq]
  rw [div_lt_div_iff₀ hxq hyq]
  exact_mod_cast Iff.rfl

theorem toRat_jsMin {x y : JSNum} (hx : 0 < x.den) (hy : 0 < y.den) :
    (jsMin x y).toRat = min x.toRat y.toRat := by
  unfold jsMin
  rcases hle : le x y with _ | _
  · have : ¬ x.toRat ≤ y.toRat := by
      intro hc
      rw [← le_iff hx hy] at hc
      simp [hle] at hc
    simp [min_eq_right (le_of_not_le this)]
  · have := (le_iff hx hy).1 hle
    simp [min_eq_left this]

theorem toRat_jsMax {x y : JSNum} (hx : 0 < x.den) (hy : 0 < y.den) :
    (jsMax x y).toRat = max x.toRat y.toRat := by
  unfold jsMax
  rcases hle : le x y with _ | _
  · have : ¬ x.toRat ≤ y.toRat := by
      intro hc
      rw [← le_iff hx hy] at hc
      simp [hle] at hc
    simp [max_eq_left (le_of_not_le this)]
  · have := (le_iff hx hy).1 hle
    simp [max_eq_right this]

end JSNum

/-! ## JSMap lemmas -/

namespace JSMap

variable {α β : Type} [BEq α] [LawfulBEq α]

theorem find?_eq_none_of_not_any (m : List (α × β)) (k : α)
    (h : m.any (fun p => p.1 == k) = false) :
    m.find? (fun p => p.1 == k) = none := by
  rw [List.find?_eq_none]
  intro x hx
  simpa using List.any_eq_false.1 h x hx

theorem find?_map_replace (t : List (α × β)) (k k' : α) (v : β)
    (hne : ¬ (k' == k) = true) :
    List.find? (fun p => p.1 == k') (t.map (fun p => if p.1 == k then (k, v) else p))
      = List.find? (fun p => p.1 == k') t := by
  induction t with
  | nil => rfl
  | cons p t ih =>
    simp only [List.map_cons]
    by_cases hp : (p.1 == k) = true
    · have hp' : p.1 = k := eq_of_beq hp
      have hkk' : (k == k') = false := by
        rcases hbe : k == k' with _ | _
        · rfl
        · exact absurd (beq_iff_eq.2 (eq_of_beq hbe).symm) hne
      rw [if_pos hp]
      rw [List.find?_cons_of_neg _ (by simp [hkk']),
        List.find?_cons_of_neg _ (by simp [hp', hkk']), ih]
    · rw [if_neg hp]
      rcases hq : p.1 == k' with _ | _
      · rw [List.find?_cons_of_neg _ (by simp [hq]),
          List.find?_cons_of_neg _ (by simp [hq]), ih]
      · simp [List.find?, hq]

theorem find?_filter_ne (t : List (α × β)) (k k' : α)
    (hne : ¬ (k' == k) = true) :
    List.find? (fun p => p.1 == k') (t.filter (fun p => !(p.1 == k)))
      = List.find? (fun p => p.1 == k') t := by
  induction t with
  | nil => rfl
  | cons p t ih =>
    by_cases hp : (p.1 == k) = true
    · have hp' : p.1 = k := eq_of_beq hp
      have hpk' : (p.1 == k') = false := by
        rcases hq : p.1 == k' with _ | _
        · rfl
        · have : k' = k := by rw [← eq_of_beq hq, hp']
          exact absurd (beq_iff_eq.2 this) hne
      rw [List.filter_cons_of_neg (by simp [hp]),
        List.find?_cons_of_neg _ (by simp [hpk']), ih]
    · rw [List.filter_cons_of_pos (by simp [hp])]
      rcases hq : p.1 == k' with _ | _
      · rw [List.find?_cons_of_neg _ (by simp [hq]),
          List.find?_cons_of_neg _ (by simp [hq]), ih]
      · simp [List.find?, hq]

theorem get_set_self (m : List (α × β)) (k : α) (v : β) :
    get (set m k v) k = some v := by
  unfold set
  split
  · rename_i hany
    induction m with
    | nil => simp at hany
    | cons p t ih =>
      simp only [List.any_cons, Bool.or_eq_true] at hany
      by_cases hp : (p.1 == k) = true
      · simp [get, List.find?, hp]
      · rcases hany with h1 | h2
        · exact absurd h1 hp
        · simpa [get, List.find?, hp] using ih h2
  · rename_i hany
    rw [Bool.not_eq_true] at hany
    unfold get
    rw [List.find?_append, find?_eq_none_of_not_any m k hany]
    simp [List.find?]

theorem get_set_ne (m : List (α × β)) (k k' : α) (v : β)
    (hne : ¬ (k' == k) = true) :
    get (set m k v) k' = get m k' := by
  unfold set
  split
  · unfold get
    rw [find?_map_replace m k k' v hne]
  · unfold get
    rw [List.find?_append]
    have h1 : [(k, v)].find? (fun p => p.1 == k') = none := by
      rcases hbe : k == k' with _ | _
      · simp [List.find?, hbe]
      · exact absurd (beq_iff_eq.2 (eq_of_beq hbe).symm) hne
    rw [h1]
    cases m.find? (fun p => p.1 == k') <;> rfl

theorem get_delete_self (m : List (α × β)) (k : α) :
    get (delete m k) k = none := by
  unfold get delete
  have hfind : List.find? (fun p => p.1 == k) (m.filter (fun p => !(p.1 == k))) = none := by
    rw [List.find?_eq_none]
    intro x hx
    rcases List.mem_filter.1 hx with ⟨_, hkeep⟩
    simp only [Bool.not_eq_eq_eq_not, Bool.not_true] at hkeep
    simp [hkeep]
  rw [hfind]
  rfl

theorem get_delete_ne (m : List (α × β)) (k k' : α)
    (hne : ¬ (k' == k) = true) :
    get (delete m k) k' = get m k' := by
  unfold get delete
  rw [find?_filter_ne m k k' hne]

theorem get_set_cases (m : List (α × β)) (k k' : α) (v : β) (l : β)
    (h : get (set m k v) k' = some l) :
    l = v ∨ get m k' = some l := by
  by_cases hk : (k' == k) = true
  · have : k' = k := eq_of_beq hk
    subst this
    rw [get_set_self] at h
    exact Or.inl (Option.some.inj h).symm
  · rw [get_set_ne m k k' v hk] at h
    exact Or.inr h

theorem get_delete_sub (m : List (α × β)) (k k' : α) (l : β)
    (h : get (delete m k) k' = some l) :
    get m k' = some l := by
  by_cases hk : (k' == k) = true
  · have : k' = k := eq_of_beq hk
    subst this
    rw [get_delete_self] at h
    exact absurd h (by simp)
  · rwa [get_delete_ne m k k' hk] at h

theorem keys_set_of_any (m : List (α × β)) (k : α) (v : β)
    (h : m.any (fun p => p.1 == k) = true) :
    (set m k v).map Prod.fst = m.map Prod.fst := by
  unfold set
  rw [if_pos h, List.map_map]
  apply List.map_congr_left
  intro p _
  by_cases hp : (p.1 == k) = true
  · simp [Function.comp, hp, (eq_of_beq hp).symm]
  · simp [Function.comp, hp]

theorem keys_set_of_not_any (m : List (α × β)) (k : α) (v : β)
    (h : m.any (fun p => p.1 == k) = false) :
    (set m k v).map Prod.fst = m.map Prod.fst ++ [k] := by
  unfold set
  rw [if_neg (by simp [h]), List.map_append]
  rfl

theorem nodup_keys_set (m : List (α × β)) (k : α) (v : β)
    (h : (m.map Prod.fst).Nodup) :
    ((set m k v).map Prod.fst).Nodup := by
  rcases hany : m.any (fun p => p.1 == k) with _ | _
  · rw [keys_set_of_not_any m k v hany]
    refine List.Nodup.append h (List.nodup_singleton k) ?_
    intro a ha hb
    rcases List.mem_singleton.1 hb with rfl
    rcases List.mem_map.1 ha with ⟨p, hp, hfst⟩
    have hbeq : (p.1 == a) = true := beq_iff_eq.2 hfst
    have hcontra : m.any (fun q => q.1 == a) = true :=
      List.any_eq_true.mpr ⟨p, hp, hbeq⟩
    rw [hany] at hcontra
    exact absurd hcontra (by simp)
  · rw [keys_set_of_any m k v hany]
    exact h

theorem nodup_keys_delete (m : List (α × β)) (k : α)
    (h : (m.map Prod.fst).Nodup) :
    ((delete m k).map Prod.fst).Nodup := by
  have hsub : List.Sublist (delete m k) m := List.filter_sublist m
  exact List.Nodup.sublist (List.Sublist.map Prod.fst hsub) h

theorem get_eq_of_mem_of_nodup (m : List (α × β)) (k : α) (v : β) :
    (m.map Prod.fst).Nodup → (k, v) ∈ m → get m k = some v := by
  induction m with
  | nil =>
    intro _ hm
    simp at hm
  | cons p t ih =>
    intro hn hm
    rw [List.map_cons, List.nodup_cons] at hn
    rcases List.mem_cons.1 hm with rfl | hmt
    · simp [get, List.find?]
    · have hk : k ∈ t.map Prod.fst := List.mem_map.2 ⟨(k, v), hmt, rfl⟩
      have hpk : (p.1 == k) = false := by
        rcases hbe : p.1 == k with _ | _
        · rfl
        · exact absurd ((eq_of_beq hbe) ▸ hk) hn.1
      unfold get
      rw [List.find?_cons_of_neg _ (by simp [hpk])]
      exact ih hn.2 hmt

end JSMap

/-! ## CommandExecutor lemmas -/

theorem iwuiLoop_true (polls : List PollResult) :
    ∀ (acc : Nat) (b : Bool) (k : Nat), iwuiLoop polls acc = some (b, k) → b = true := by
  induction polls with
  | nil =>
    intro acc b k h
    exact absurd h (by simp [iwuiLoop])
  | cons p rest ih =>
    intro acc b k h
    cases p with
    | err =>
      simp [iwuiLoop] at h
      exact h.1
    | idle =>
      simp [iwuiLoop] at h
      exact h.1
    | busy cpu =>
      rw [iwuiLoop] at h
      split at h
      · split at h
        · simp at h
          exact h.1
        · split at h
          · rename_i b' k' heq
            simp at h
            exact h.1.symm.trans (ih _ _ _ heq)
          · exact absurd h (by simp)
      · split at h
        · rename_i b' k' heq
          simp at h
          exact h.1.symm.trans (ih _ _ _ heq)
        · exact absurd h (by simp)

theorem isWaitingForUserInput_true (openOk : Bool) (polls : List PollResult)
    (b : Bool) (k : Nat) (h : isWaitingForUserInput openOk polls = some (b, k)) :
    b = true := by
  unfold isWaitingForUserInput at h
  split at h
  · exact iwuiLoop_true polls 0 b k h
  · simp at h
    exact h.1

theorem phaseBTimeout_den_pos {tms e : JSNum} (h1 : 0 < tms.den) (h2 : 0 < e.den) :
    0 < (phaseBTimeout tms e).den := by
  unfold phaseBTimeout
  exact JSNum.den_pos_jsMin
    (JSNum.den_pos_mul
      (JSNum.den_pos_jsMax (JSNum.den_pos_sub h1 h2) (by decide)) (by decide))
    (JSNum.den_pos_mul h1 (by decide))

theorem phaseBTimeout_toRat {tms e : JSNum} (h1 : 0 < tms.den) (h2 : 0 < e.den) :
    (phaseBTimeout tms e).toRat =
      min (max (tms.toRat - e.toRat) 1000 * (93 / 100)) (tms.toRat * (7 / 10)) := by
  unfold phaseBTimeout
  rw [JSNum.toRat_jsMin
      (JSNum.den_pos_mul
        (JSNum.den_pos_jsMax (JSNum.den_pos_sub h1 h2) (by decide)) (by decide))
      (JSNum.den_pos_mul h1 (by decide)),
    JSNum.toRat_mul, JSNum.toRat_mul,
    JSNum.toRat_jsMax (JSNum.den_pos_sub h1 h2) (by decide),
    JSNum.toRat_sub h1 h2, JSNum.toRat_ofInt]
  norm_num [JSNum.toRat]

theorem clampTimeout_den_pos {t : JSNum} (h : 0 < t.den) :
    0 < (clampTimeout t).den := by
  unfold clampTimeout
  exact JSNum.den_pos_jsMin (JSNum.den_pos_jsMax h (by decide)) (by decide)

theorem clampTimeout_toRat {t : JSNum} (h : 0 < t.den) :
    (clampTimeout t).toRat = min (max t.toRat 1) 120 := by
  unfold clampTimeout
  rw [JSNum.toRat_jsMin (JSNum.den_pos_jsMax h (by decide)) (by decide),
    JSNum.toRat_jsMax h (by decide), JSNum.toRat_ofInt, JSNum.toRat_ofInt]
  norm_num

theorem phaseBTimeout_lt_pos {tms e : JSNum} (h1 : 0 < tms.den) (h2 : 0 < e.den)
    (h3 : 0 < tms.toRat) (h4 : 0 ≤ e.toRat) :
    (JSNum.ofInt 0).lt (phaseBTimeout tms e) = true := by
  rw [JSNum.lt_iff (by decide) (phaseBTimeout_den_pos h1 h2), JSNum.toRat_ofInt,
    phaseBTimeout_toRat h1 h2]
  push_cast
  refine lt_min ?_ ?_
  · have hmax : (1000 : ℚ) ≤ max (tms.toRat - e.toRat) 1000 := le_max_right _ _
    nlinarith
  · nlinarith

theorem executeCommand_ok_fields
    (beforeBuffer afterBuffer : String) (timeoutSeconds : JSNum)
    (returnOutputLines : Nat) (procPolls : List Bool) (openOk : Bool)
    (inspectorPolls : List PollResult) (captureThrows : Bool) (r : ExecResult)
    (h : executeCommand beforeBuffer afterBuffer timeoutSeconds returnOutputLines
        procPolls openOk inspectorPolls captureThrows = Except.ok r) :
    r.newLines = ((jsSplitNewline afterBuffer).length : Int)
        - ((jsSplitNewline beforeBuffer).length : Int) ∧
    r.output = (if returnOutputLines > 0 then
        (if captureThrows then CapturedOutput.null
          else CapturedOutput.text (joinWith
            (lastSlice (jsSplitNewline afterBuffer) (returnOutputLines + 1)) "\n"))
      else CapturedOutput.absent) := by
  simp only [executeCommand] at h
  split at h
  · exact absurd h (by simp)
  · split at h
    · split at h
      · exact absurd h (by simp)
      · split at h
        · exact absurd h (by simp)
        · split at h
          · rw [Except.ok.injEq] at h
            subst h
            exact ⟨rfl, rfl⟩
          · exact absurd h (by simp)
    · exact absurd h (by simp)

/-! ## Claim theorems -/

/-- C9: every value `isWaitingForUserInput` returns is `true` (the inner
catch, the outer catch and the `finally` block all yield `true`, and both
in-loop exits return `true`), so the 100 ms re-check loop in
`waitForUserInputReady` runs its body zero times: the first call decides
Phase B. -/
theorem c9_isWaitingForUserInput_always_true (openOk : Bool)
    (polls : List PollResult) (b : Bool) (k : Nat)
    (h : isWaitingForUserInput openOk polls = some (b, k)) :
    b = true ∧ ∀ rest : List Bool, waitForUserInputReadySleeps (b :: rest) = some 0 := by
  have hb : b = true := isWaitingForUserInput_true openOk polls b k h
  subst hb
  exact ⟨rfl, fun rest => by simp [waitForUserInputReadySleeps]⟩

/-- Witness for C9 at a concrete trace: one poll reporting no foreground
process. -/
theorem c9_witness :
    (true : Bool) = true ∧
    ∀ rest : List Bool, waitForUserInputReadySleeps (true :: rest) = some 0 :=
  c9_isWaitingForUserInput_always_true true [PollResult.idle] true 0 (by decide)

/-- Success-path reduction of `executeCommand`: when Phase A completes
within its budget and the single Phase B check returns `true` within the
Phase B budget, the call returns a success result. -/
theorem executeCommand_ok_of
    (beforeBuffer afterBuffer : String) (timeoutSeconds : JSNum)
    (returnOutputLines : Nat) (procPolls : List Bool) (openOk : Bool)
    (inspectorPolls : List PollResult) (captureThrows : Bool) (k j : Nat)
    (h1 : waitForProcessingCompleteSleeps procPolls = some k)
    (h2 : (JSNum.ofInt (100 * k)).lt
        (phaseATimeoutBudget (JSNum.mul timeoutSeconds (JSNum.ofInt 1000))) = true)
    (h3 : isWaitingForUserInput openOk inspectorPolls = some (true, j))
    (h4 : (JSNum.ofInt (350 * (j : Int))).lt
        (phaseBTimeout (JSNum.mul timeoutSeconds (JSNum.ofInt 1000))
          (JSNum.ofInt (100 * k))) = true) :
    ∃ r, executeCommand beforeBuffer afterBuffer timeoutSeconds returnOutputLines
        procPolls openOk inspectorPolls captureThrows = Except.ok r := by
  simp [executeCommand, h1, h2, h3, h4, waitForUserInputReadySleeps]

/-- C1: when every Phase B inspector poll errors, `isWaitingForUserInput`
returns `true` immediately (no sleeps) instead of propagating the error,
and — provided Phase A completed within its budget and the timeout is
positive — `executeCommand` returns a success result rather than an
error. -/
theorem c1_inspector_error_fail_open
    (beforeBuffer afterBuffer : String) (timeoutSeconds : JSNum)
    (returnOutputLines : Nat) (procPolls : List Bool) (openOk : Bool)
    (inspectorPolls : List PollResult) (captureThrows : Bool) (procSleeps : Nat)
    (hden : 0 < timeoutSeconds.den)
    (hpos : (JSNum.ofInt 0).lt timeoutSeconds = true)
    (hA : waitForProcessingCompleteSleeps procPolls = some procSleeps)
    (hAb : (JSNum.ofInt (100 * procSleeps)).lt
        (phaseATimeoutBudget (JSNum.mul timeoutSeconds (JSNum.ofInt 1000))) = true)
    (hne : inspectorPolls ≠ [])
    (herr : ∀ p ∈ inspectorPolls, p = PollResult.err) :
    isWaitingForUserInput openOk inspectorPolls = some (true, 0) ∧
    ∃ r, executeCommand beforeBuffer afterBuffer timeoutSeconds returnOutputLines
        procPolls openOk inspectorPolls captureThrows = Except.ok r := by
  have hiw : isWaitingForUserInput openOk inspectorPolls = some (true, 0) := by
    cases openOk with
    | false => rfl
    | true =>
      cases inspectorPolls with
      | nil => exact absurd rfl hne
      | cons p rest =>
        have hp : p = PollResult.err := herr p (List.mem_cons_self p rest)
        subst hp
        rfl
  refine ⟨hiw, ?_⟩
  have hTpos : 0 < timeoutSeconds.toRat := by
    have := (JSNum.lt_iff (x := JSNum.ofInt 0) (by decide) hden).1 hpos
    rwa [JSNum.toRat_ofInt, Int.cast_zero] at this
  have htmsden : 0 < (JSNum.mul timeoutSeconds (JSNum.ofInt 1000)).den :=
    JSNum.den_pos_mul hden (by decide)
  have htmspos : 0 < (JSNum.mul timeoutSeconds (JSNum.ofInt 1000)).toRat := by
    rw [JSNum.toRat_mul, JSNum.toRat_ofInt]
    push_cast
    nlinarith
  have hB : (JSNum.ofInt 0).lt
      (phaseBTimeout (JSNum.mul timeoutSeconds (JSNum.ofInt 1000))
        (JSNum.ofInt (100 * procSleeps))) = true := by
    refine phaseBTimeout_lt_pos htmsden (by simp [JSNum.ofInt]) htmspos ?_
    rw [JSNum.toRat_ofInt]
    positivity
  exact executeCommand_ok_of beforeBuffer afterBuffer timeoutSeconds returnOutputLines
    procPolls openOk inspectorPolls captureThrows procSleeps 0 hA hAb hiw
    (by simpa using hB)

/-- Witness for C1 at a concrete run: timeout 30 s, Phase A clears on the
first poll, every inspector poll errors. -/
theorem c1_witness :
    isWaitingForUserInput true [PollResult.err] = some (true, 0) ∧
    ∃ r, executeCommand "a" "a\nb" (JSNum.ofInt 30) 0 [false] true [PollResult.err] false
        = Except.ok r :=
  c1_inspector_error_fail_open "a" "a\nb" (JSNum.ofInt 30) 0 [false] true [PollResult.err]
    false 0 (by decide) (by decide) (by decide) (by decide) (by decide) (by decide)

/-- C2 counterexample: with the caller timeout clamped to 1 s and zero
elapsed time, the Phase B budget `executeCommand` computes is 7000/10 =
700 ms — strictly below the 1000 ms the claim asserts as a lower bound. -/
theorem c2_counterexample :
    phaseBTimeout (JSNum.mul (clampTimeout (JSNum.ofInt 1)) (JSNum.ofInt 1000))
        (JSNum.ofInt 0) = ⟨7000, 10⟩ ∧
    ((⟨7000, 10⟩ : JSNum)).toRat = 700 ∧
    ((⟨7000, 10⟩ : JSNum)).toRat < 1000 := by
  refine ⟨by decide, ?_, ?_⟩
  · norm_num [JSNum.toRat]
  · norm_num [JSNum.toRat]

/-- C2 amended: for every clamped timeout and every nonnegative elapsed
time, the Phase B budget is at least 700 ms (the 1000 ms floor in the code
applies to the pre-scaling remaining time, not to the resulting budget,
which is then scaled by 0.93 and capped at 0.7 of the total). -/
theorem c2_amended_phaseB_budget_at_least_700 (t elapsed : JSNum)
    (ht : 0 < t.den) (he : 0 < elapsed.den)
    (he0 : (JSNum.ofInt 0).le elapsed = true) :
    700 ≤ (phaseBTimeout (JSNum.mul (clampTimeout t) (JSNum.ofInt 1000)) elapsed).toRat := by
  have he0' : (0 : ℚ) ≤ elapsed.toRat := by
    have := (JSNum.le_iff (x := JSNum.ofInt 0) (by decide) he).1 he0
    rwa [JSNum.toRat_ofInt, Int.cast_zero] at this
  have hMden : 0 < (JSNum.mul (clampTimeout t) (JSNum.ofInt 1000)).den :=
    JSNum.den_pos_mul (clampTimeout_den_pos ht) (by decide)
  rw [phaseBTimeout_toRat hMden he, JSNum.toRat_mul, clampTimeout_toRat ht,
    JSNum.toRat_ofInt]
  push_cast
  have h1 : (1 : ℚ) ≤ min (max t.toRat 1) 120 :=
    le_min (le_max_right _ _) (by norm_num)
  refine le_min ?_ ?_
  · have hmax : (1000 : ℚ) ≤
        max (min (max t.toRat 1) 120 * 1000 - elapsed.toRat) 1000 := le_max_right _ _
    nlinarith
  · nlinarith

/-- Witness for C2's amended theorem at the boundary input that refutes
the original claim: clamped timeout 1 s, zero elapsed time. -/
theorem c2_witness :
    700 ≤ (phaseBTimeout (JSNum.mul (clampTimeout (JSNum.ofInt 1)) (JSNum.ofInt 1000))
        (JSNum.ofInt 0)).toRat :=
  c2_amended_phaseB_budget_at_least_700 (JSNum.ofInt 1) (JSNum.ofInt 0)
    (by decide) (by decide) (by decide)

/-- C3 counterexample: a 3-line before-buffer and a 1-line after-buffer
make `executeCommand` return `newLines = -2`, a negative value. -/
theorem c3_counterexample :
    executeCommand "a\nb\nc" "x" (JSNum.ofInt 30) 0 [false] true [PollResult.idle] false
      = Except.ok ⟨-2, ⟨200, 1⟩, CapturedOutput.absent⟩ ∧ (-2 : Int) < 0 := by
  decide

/-- C3 amended: `newLines` is the signed difference of the two line
counts, so it is nonnegative exactly when the after-buffer has at least as
many lines as the before-buffer (the buffer can shrink, e.g. when it is
cleared, and then `newLines` is negative). -/
theorem c3_amended_newLines_nonneg_iff
    (beforeBuffer afterBuffer : String) (timeoutSeconds : JSNum)
    (returnOutputLines : Nat) (procPolls : List Bool) (openOk : Bool)
    (inspectorPolls : List PollResult) (captureThrows : Bool) (r : ExecResult)
    (h : executeCommand beforeBuffer afterBuffer timeoutSeconds returnOutputLines
        procPolls openOk inspectorPolls captureThrows = Except.ok r) :
    0 ≤ r.newLines ↔
      (jsSplitNewline beforeBuffer).length ≤ (jsSplitNewline afterBuffer).length := by
  rw [(executeCommand_ok_fields beforeBuffer afterBuffer timeoutSeconds returnOutputLines
    procPolls openOk inspectorPolls captureThrows r h).1]
  omega

/-- Witness for C3's amended theorem on a growing buffer. -/
theorem c3_witness :
    0 ≤ (⟨3, ⟨200, 1⟩, CapturedOutput.absent⟩ : ExecResult).newLines ↔
      (jsSplitNewline "a\nb").length ≤ (jsSplitNewline "a\nb\nc\nd\ne").length :=
  c3_amended_newLines_nonneg_iff "a\nb" "a\nb\nc\nd\ne" (JSNum.ofInt 30) 0 [false] true
    [PollResult.idle] false ⟨3, ⟨200, 1⟩, CapturedOutput.absent⟩ (by decide)

/-- C4: every successful `executeCommand` call reports `newLines` equal to
the line count of the after-buffer minus the line count of the
before-buffer. -/
theorem c4_newLines_is_buffer_line_difference
    (beforeBuffer afterBuffer : String) (timeoutSeconds : JSNum)
    (returnOutputLines : Nat) (procPolls : List Bool) (openOk : Bool)
    (inspectorPolls : List PollResult) (captureThrows : Bool) (r : ExecResult)
    (h : executeCommand beforeBuffer afterBuffer timeoutSeconds returnOutputLines
        procPolls openOk inspectorPolls captureThrows = Except.ok r) :
    r.newLines = ((jsSplitNewline afterBuffer).length : Int)
      - ((jsSplitNewline beforeBuffer).length : Int) :=
  (executeCommand_ok_fields beforeBuffer afterBuffer timeoutSeconds returnOutputLines
    procPolls openOk inspectorPolls captureThrows r h).1

/-- Witness for C4: a 2-line before-buffer and a 5-line after-buffer give
`newLines = 3`. -/
theorem c4_witness :
    (⟨3, ⟨200, 1⟩, CapturedOutput.absent⟩ : ExecResult).newLines
      = ((jsSplitNewline "a\nb\nc\nd\ne").length : Int)
        - ((jsSplitNewline "a\nb").length : Int) :=
  c4_newLines_is_buffer_line_difference "a\nb" "a\nb\nc\nd\ne" (JSNum.ofInt 30) 0 [false]
    true [PollResult.idle] false ⟨3, ⟨200, 1⟩, CapturedOutput.absent⟩ (by decide)

/-- C5: on every successful call, requesting `N > 0` lines captures the
last `N + 1` lines of the after-buffer joined by newlines, requesting
`N = 0` leaves the output field absent, and a throw during the slicing
step degrades the field to `null` while the call still succeeds. -/
theorem c5_captured_output_slicing
    (beforeBuffer afterBuffer : String) (timeoutSeconds : JSNum)
    (returnOutputLines : Nat) (procPolls : List Bool) (openOk : Bool)
    (inspectorPolls : List PollResult) (captureThrows : Bool) (r : ExecResult)
    (h : executeCommand beforeBuffer afterBuffer timeoutSeconds returnOutputLines
        procPolls openOk inspectorPolls captureThrows = Except.ok r) :
    (returnOutputLines = 0 → r.output = CapturedOutput.absent) ∧
    (0 < returnOutputLines → captureThrows = false →
      r.output = CapturedOutput.text (joinWith
        (lastSlice (jsSplitNewline afterBuffer) (returnOutputLines + 1)) "\n")) ∧
    (0 < returnOutputLines → captureThrows = true →
      r.output = CapturedOutput.null) := by
  have hout := (executeCommand_ok_fields beforeBuffer afterBuffer timeoutSeconds
    returnOutputLines procPolls openOk inspectorPolls captureThrows r h).2
  refine ⟨?_, ?_, ?_⟩
  · intro h0
    subst h0
    simpa using hout
  · intro hn hct
    subst hct
    rw [hout, if_pos hn]
    simp
  · intro hn hct
    subst hct
    rw [hout, if_pos hn]
    simp

/-- Witness for C5: capture of the last 3 lines for `N = 2` over a 5-line
buffer, and the `null` degradation on a capture throw with the call still
returning a success result. -/
theorem c5_witness :
    (⟨3, ⟨200, 1⟩, CapturedOutput.text "c\nd\ne"⟩ : ExecResult).output
      = CapturedOutput.text (joinWith (lastSlice (jsSplitNewline "a\nb\nc\nd\ne") 3) "\n") ∧
    (⟨1, ⟨200, 1⟩, CapturedOutput.null⟩ : ExecResult).output = CapturedOutput.null := by
  constructor
  · exact (c5_captured_output_slicing "a\nb" "a\nb\nc\nd\ne" (JSNum.ofInt 30) 2 [false] true
      [PollResult.idle] false ⟨3, ⟨200, 1⟩, CapturedOutput.text "c\nd\ne"⟩ (by decide)).2.1
      (by decide) rfl
  · exact (c5_captured_output_slicing "a" "a\nb" (JSNum.ofInt 30) 2 [false] true
      [PollResult.idle] true ⟨1, ⟨200, 1⟩, CapturedOutput.null⟩ (by decide)).2.2
      (by decide) rfl


/-- C6: `resolveTabIndex` resolves a string identifier numeric-first (the
parsed integer is returned without consulting aliases or names), then by
alias (winning over any name collision), then by name, and errors exactly
when all three lookups fail; concretely, alias `"x"` on index 2 beats a
tab named `"x"` at index 0, and `"0"` resolves to index 0. -/
theorem c6_resolveTabIndex_order :
    (∀ (aliases : TabAliases) (tabs : List TabRec) (w s : String) (n : Int),
      jsParseInt s = some n →
      resolveTabIndex aliases tabs w (Sum.inl s) = Except.ok n) ∧
    (∀ (aliases : TabAliases) (tabs : List TabRec) (w s : String) (i : Nat),
      jsParseInt s = none → getTabIndexByAlias aliases w s = some i →
      resolveTabIndex aliases tabs w (Sum.inl s) = Except.ok (Int.ofNat i)) ∧
    (∀ (aliases : TabAliases) (tabs : List TabRec) (w s : String),
      (∃ e, resolveTabIndex aliases tabs w (Sum.inl s) = Except.error e) ↔
      (jsParseInt s = none ∧ getTabIndexByAlias aliases w s = none ∧
        getTabIndex tabs s = none)) ∧
    (resolveTabIndex [("w", [(2, "x")])] [⟨0, "x"⟩] "w" (Sum.inl "x") = Except.ok 2 ∧
     resolveTabIndex [("w", [(2, "x")])] [⟨0, "x"⟩] "w" (Sum.inl "0") = Except.ok 0) := by
  refine ⟨?_, ?_, ?_, by decide⟩
  · intro al tabs w s n hp
    simp [resolveTabIndex, hp]
  · intro al tabs w s i hp ha
    simp [resolveTabIndex, hp, ha]
  · intro al tabs w s
    constructor
    · rintro ⟨e, he⟩
      rcases hp : jsParseInt s with _ | n
      · rcases ha : getTabIndexByAlias al w s with _ | i
        · rcases hn : getTabIndex tabs s with _ | j
          · exact ⟨rfl, rfl, rfl⟩
          · simp [resolveTabIndex, hp, ha, hn] at he
        · simp [resolveTabIndex, hp, ha] at he
      · simp [resolveTabIndex, hp] at he
    · rintro ⟨hp, ha, hn⟩
      refine ⟨"Tab not found: " ++ s, ?_⟩
      simp [resolveTabIndex, hp, ha, hn]

/-- Witness for C6: a purely numeric identifier resolves to its value with
no aliases and no tabs at all. -/
theorem c6_witness : resolveTabIndex [] [] "w" (Sum.inl "7") = Except.ok 7 :=
  c6_resolveTabIndex_order.1 [] [] "w" "7" 7 (by decide)

/-- C7 counterexample: setting alias `"x"` on index 0 and then on index 1
of the same window leaves both indices holding `"x"` — the registry is
keyed by tab index and `setTabAlias` never evicts another index holding
the same alias string, so one alias string can be held by two tab indices
within a single window. -/
theorem c7_counterexample :
    getTabAlias (setTabAlias (setTabAlias [] "w" 0 "x") "w" 1 "x") "w" 0 = some "x" ∧
    getTabAlias (setTabAlias (setTabAlias [] "w" 0 "x") "w" 1 "x") "w" 1 = some "x" ∧
    (0 : Nat) ≠ 1 := by
  decide

/-- C7 amended: after any operation sequence from the empty registry, each
tab index within a window holds at most one alias (the per-window table
has no duplicate index keys); alias state is scoped per window — an
operation on one window never changes another window's aliases — so the
same alias string may be held in two different windows; but it may also be
held by two different tab indices inside one window, and
`getTabIndexByAlias` then returns an index that actually holds that alias,
namely the one whose entry was inserted first (insertion order, not index
order, decides the tie). -/
theorem c7_amended_alias_scoping :
    (∀ (ops : List AliasOp) (w : String) (l : List (Nat × String)),
        JSMap.get (applyAliasOps [] ops) w = some l → (l.map Prod.fst).Nodup) ∧
    (∀ (st : TabAliases) (op : AliasOp) (w : String), w ≠ op.windowId →
        JSMap.get (applyAliasOp st op) w = JSMap.get st w) ∧
    (getTabIndexByAlias (setTabAlias (setTabAlias [] "w1" 0 "x") "w2" 1 "x") "w1" "x"
        = some 0 ∧
     getTabIndexByAlias (setTabAlias (setTabAlias [] "w1" 0 "x") "w2" 1 "x") "w2" "x"
        = some 1) ∧
    (∀ (ops : List AliasOp) (w a : String) (i : Nat),
        getTabIndexByAlias (applyAliasOps [] ops) w a = some i →
        getTabAlias (applyAliasOps [] ops) w i = some a) ∧
    (getTabIndexByAlias (setTabAlias (setTabAlias [] "w" 0 "x") "w" 1 "x") "w" "x"
        = some 0 ∧
     getTabIndexByAlias (setTabAlias (setTabAlias [] "w" 1 "x") "w" 0 "x") "w" "x"
        = some 1) := by
  have main : ∀ (ops : List AliasOp) (st : TabAliases),
      (∀ w l, JSMap.get st w = some l → (l.map Prod.fst).Nodup) →
      (∀ w l, JSMap.get (applyAliasOps st ops) w = some l → (l.map Prod.fst).Nodup) := by
    intro ops
    induction ops with
    | nil => exact fun st h => h
    | cons op rest ih =>
      intro st h
      refine ih (applyAliasOp st op) ?_
      intro w l hget
      cases op with
      | setA w' i a =>
        simp only [applyAliasOp, setTabAlias] at hget
        rcases JSMap.get_set_cases _ _ _ _ _ hget with rfl | hold
        · apply JSMap.nodup_keys_set
          rcases hin : JSMap.get st w' with _ | inner
          · simp [hin]
          · simpa [hin] using h w' inner hin
        · exact h w l hold
      | removeA w' i =>
        simp only [applyAliasOp, removeTabAlias] at hget
        rcases hin : JSMap.get st w' with _ | inner
        · simp only [hin] at hget
          exact h w l hget
        · simp only [hin] at hget
          rcases JSMap.get_set_cases _ _ _ _ _ hget with rfl | hold
          · exact JSMap.nodup_keys_delete _ _ (h w' inner hin)
          · exact h w l hold
      | clearW w' =>
        simp only [applyAliasOp, clearWindowAliases] at hget
        exact h w l (JSMap.get_delete_sub _ _ _ _ hget)
  have inv : ∀ (ops : List AliasOp) (w : String) (l : List (Nat × String)),
      JSMap.get (applyAliasOps [] ops) w = some l → (l.map Prod.fst).Nodup :=
    fun ops w l => main ops [] (by intro w' l' h'; simp [JSMap.get] at h') w l
  refine ⟨inv, ?_, by decide, ?_, by decide⟩
  · intro st op w hw
    cases op with
    | setA w' i a =>
      simp only [applyAliasOp, setTabAlias]
      exact JSMap.get_set_ne _ _ _ _ (by simpa [AliasOp.windowId] using hw)
    | removeA w' i =>
      simp only [applyAliasOp, removeTabAlias]
      rcases hin : JSMap.get st w' with _ | inner
      · rfl
      · exact JSMap.get_set_ne _ _ _ _ (by simpa [AliasOp.windowId] using hw)
    | clearW w' =>
      simp only [applyAliasOp, clearWindowAliases]
      exact JSMap.get_delete_ne _ _ _ (by simpa [AliasOp.windowId] using hw)
  · intro ops w a i hlook
    rcases hget : JSMap.get (applyAliasOps [] ops) w with _ | inner
    · unfold getTabIndexByAlias at hlook
      rw [hget] at hlook
      exact absurd hlook (by simp)
    · have hlook' : Option.map Prod.fst (inner.find? (fun p => p.2 == a)) = some i := by
        unfold getTabIndexByAlias at hlook
        rw [hget] at hlook
        exact hlook
      rcases hfind : inner.find? (fun p => p.2 == a) with _ | entry
      · rw [hfind] at hlook'
        exact absurd hlook' (by simp)
      · rw [hfind] at hlook'
        have hmem : entry ∈ inner := List.mem_of_find?_eq_some hfind
        have hpred := List.find?_some hfind
        have ha : entry.2 = a := eq_of_beq (by simpa using hpred)
        have hi : entry.1 = i := by simpa using hlook'
        have hnodup : (inner.map Prod.fst).Nodup := inv ops w inner hget
        unfold getTabAlias
        rw [hget]
        show JSMap.get inner i = some a
        rw [← hi, ← ha]
        exact JSMap.get_eq_of_mem_of_nodup inner entry.1 entry.2 hnodup hmem

/-- Witness for C7's amended theorem: setting an alias in window `w1`
leaves window `w2` untouched. -/
theorem c7_witness :
    JSMap.get (applyAliasOp [] (AliasOp.setA "w1" 0 "x")) "w2"
      = JSMap.get ([] : TabAliases) "w2" :=
  c7_amended_alias_scoping.2.1 [] (AliasOp.setA "w1" 0 "x") "w2" (by decide)

/-- C8: `endSession` is a total function (the close-window failure is
handled inside, so it never throws); with no registered window it returns
the state unchanged and fires no channel call, and with a registered
window it removes the client's entries from all three registries — with
the same outcome whether the close-window channel call fails or not. -/
theorem c8_endSession_no_throw_cleanup (closeFails : Bool) (clientId : String)
    (st : SMState) :
    (JSMap.get st.sessionWindowMap clientId = none →
      endSession closeFails clientId st = (st, [])) ∧
    (∀ w, JSMap.get st.sessionWindowMap clientId = some w →
      JSMap.get (endSession closeFails clientId st).1.sessionWindowMap clientId = none ∧
      JSMap.get (endSession closeFails clientId st).1.sessionPathMap clientId = none ∧
      JSMap.get (endSession closeFails clientId st).1.sessionTabMap clientId = none) ∧
    endSession true clientId st = endSession false clientId st := by
  refine ⟨?_, ?_, ?_⟩
  · intro hget
    simp [endSession, hget]
  · intro w hget
    simp only [endSession, hget]
    cases closeFails <;>
      exact ⟨JSMap.get_delete_self _ _, JSMap.get_delete_self _ _,
        JSMap.get_delete_self _ _⟩
  · unfold endSession
    cases JSMap.get st.sessionWindowMap clientId <;> simp

/-- Witness for C8 on a concrete one-client state with a failing
close-window call. -/
theorem c8_witness :
    JSMap.get (endSession true "c"
      ⟨[("c", "w1")], [("c", "/p")], [("c", ⟨"w1", 0, none⟩)]⟩).1.sessionWindowMap "c"
      = none ∧
    JSMap.get (endSession true "c"
      ⟨[("c", "w1")], [("c", "/p")], [("c", ⟨"w1", 0, none⟩)]⟩).1.sessionPathMap "c"
      = none ∧
    JSMap.get (endSession true "c"
      ⟨[("c", "w1")], [("c", "/p")], [("c", ⟨"w1", 0, none⟩)]⟩).1.sessionTabMap "c"
      = none :=
  (c8_endSession_no_throw_cleanup true "c"
    ⟨[("c", "w1")], [("c", "/p")], [("c", ⟨"w1", 0, none⟩)]⟩).2.1 "w1" (by decide)


/-- Every channel call `closeSessionTab` fires is a close-tab call — it
never closes a window. -/
theorem closeSessionTab_calls (ch : Channel) (aliases : TabAliases) (st : SMState)
    (clientId : String) (tabIdentifier : String ⊕ Int) :
    (closeSessionTab ch aliases st clientId tabIdentifier).2 = [] ∨
    ∃ w i, (closeSessionTab ch aliases st clientId tabIdentifier).2
      = [ChannelCall.closeTab w i] := by
  unfold closeSessionTab
  split
  · exact Or.inl rfl
  · split
    · exact Or.inl rfl
    · split
      · exact Or.inr ⟨_, _, rfl⟩
      · exact Or.inr ⟨_, _, rfl⟩

/-- Every channel call added by the identifier loop of `closeTabs` is a
close-tab call. -/
theorem closeTabsFold_calls (ch : Channel) (aliases : TabAliases) (clientId : String) :
    ∀ (l : List String) (acc : SMState × List ChannelCall × List String × List String),
      ∀ c ∈ (l.foldl (closeTabsStep ch aliases clientId) acc).2.1,
        c ∈ acc.2.1 ∨ ∃ w i, c = ChannelCall.closeTab w i := by
  intro l
  induction l with
  | nil =>
    intro acc c hc
    exact Or.inl hc
  | cons x t ih =>
    intro acc c hc
    rcases ih (closeTabsStep ch aliases clientId acc x) c hc with hmem | hct
    · unfold closeTabsStep at hmem
      rcases hcs : closeSessionTab ch aliases acc.1 clientId (Sum.inl x) with ⟨res, cs⟩
      rw [hcs] at hmem
      have hcalls : c ∈ acc.2.1 ++ cs := by
        cases res with
        | ok st' => simpa using hmem
        | error e => simpa using hmem
      rcases List.mem_append.1 hcalls with h1 | h2
      · exact Or.inl h1
      · right
        have hshape := closeSessionTab_calls ch aliases acc.1 clientId (Sum.inl x)
        rw [hcs] at hshape
        rcases hshape with hnil | ⟨w, i, heq⟩
        · have hnil' : cs = [] := hnil
          rw [hnil'] at h2
          exact absurd h2 (by simp)
        · have heq' : cs = [ChannelCall.closeTab w i] := heq
          rw [heq'] at h2
          rcases List.mem_singleton.1 h2 with rfl
          exact ⟨w, i, rfl⟩
    · exact Or.inr hct

/-- The calls of the individual-closures path of `closeTabs` are all
close-tab calls. -/
theorem closeTabsLoop_calls (ch : Channel) (aliases : TabAliases) (st : SMState)
    (clientId : String) (tabList : List String) :
    ∀ c ∈ (closeTabsLoop ch aliases st clientId tabList).2.1,
      ∃ w i, c = ChannelCall.closeTab w i := by
  intro c hc
  unfold closeTabsLoop at hc
  rcases hfold : tabList.foldl (closeTabsStep ch aliases clientId) (st, [], [], [])
    with ⟨st', calls, closedTabs, failedTabs⟩
  rw [hfold] at hc
  simp only at hc
  have := closeTabsFold_calls ch aliases clientId tabList (st, [], [], [])
  rw [hfold] at this
  rcases this c (by simpa using hc) with h1 | h2
  · exact absurd h1 (by simp)
  · exact h2

/-- C10: `closeTabs` closes the whole window only when its argument is a
bare string equal to `"all"` case-insensitively; a list — even the
one-element list `["all"]` — goes through per-identifier resolution and
never fires a close-window call, and concretely `["all"]` fails with the
resolver's not-found error. -/
theorem c10_closeTabs_window_branch :
    (∀ (ch : Channel) (aliases : TabAliases) (st : SMState) (clientId : String)
        (l : List String),
      ∀ c ∈ (closeTabs ch aliases st clientId (Sum.inr l)).2.1,
        ∃ w i, c = ChannelCall.closeTab w i) ∧
    (∀ (ch : Channel) (aliases : TabAliases) (st : SMState) (clientId : String)
        (tabs : String ⊕ List String) (w : String),
      ChannelCall.closeWindow w ∈ (closeTabs ch aliases st clientId tabs).2.1 →
      ∃ s, tabs = Sum.inl s ∧ jsToLower s = "all") ∧
    (closeTabs ⟨false, [], fun _ => false, none⟩ [] ⟨[("c", "w1")], [], []⟩ "c"
        (Sum.inr ["all"])
      = (⟨[("c", "w1")], [], []⟩, [],
          ⟨false, "Failed to close: all: Tab not found: all"⟩)) := by
  have hinr : ∀ (ch : Channel) (aliases : TabAliases) (st : SMState) (clientId : String)
      (l : List String),
      ∀ c ∈ (closeTabs ch aliases st clientId (Sum.inr l)).2.1,
        ∃ w i, c = ChannelCall.closeTab w i := by
    intro ch aliases st clientId l c hc
    unfold closeTabs at hc
    rcases hget : JSMap.get st.sessionWindowMap clientId with _ | w0
    · rw [hget] at hc
      exact absurd hc (by simp)
    · rw [hget] at hc
      exact closeTabsLoop_calls ch aliases st clientId l c (by simpa using hc)
  refine ⟨hinr, ?_, by decide⟩
  intro ch aliases st clientId tabs w hmem
  cases tabs with
  | inr l =>
    rcases hinr ch aliases st clientId l _ hmem with ⟨w', i, heq⟩
    exact absurd heq (by simp)
  | inl s =>
    by_cases hall : (jsToLower s == "all") = true
    · exact ⟨s, rfl, by simpa using hall⟩
    · unfold closeTabs at hmem
      rcases hget : JSMap.get st.sessionWindowMap clientId with _ | w0
      · rw [hget] at hmem
        exact absurd hmem (by simp)
      · rw [hget] at hmem
        rw [Bool.not_eq_true] at hall
        simp only [hall, Bool.false_eq_true, if_false] at hmem
        rcases closeTabsLoop_calls ch aliases st clientId [s] _ (by simpa using hmem)
          with ⟨w', i, heq⟩
        exact absurd heq (by simp)

/-- Witness for C10 at the case-insensitive window branch: a bare
`"ALL"`. -/
theorem c10_witness :
    ∃ s, (Sum.inl "ALL" : String ⊕ List String) = Sum.inl s ∧ jsToLower s = "all" :=
  c10_closeTabs_window_branch.2.1 ⟨false, [], fun _ => false, none⟩ []
    ⟨[("c", "w1")], [], []⟩ "c" (Sum.inl "ALL") "w1" (by decide)


end ItermMcp
